import Mathlib

/-!
A shallow embedding of `main.go` of cloudquery/licenser.

The tool walks a directory tree for module roots (directories holding an entry
named `go.mod`), and for each root runs the external program `go-licenses`,
either to check for disallowed license types or to render a report.

Modelling conventions.

* A Go `string` whose content is inspected (the captured standard error and
  standard output of the scanner) is a `List Char`.  The separator `"\n"` and
  the four markers are ASCII, so splitting and substring search behave the same
  on the byte view and on the character view of the text.
* A path is a `GoPath`: a flag saying whether it is absolute and its list of
  components.  `filepath.Join p name` appends a component and `filepath.Dir p`
  drops the last one.
* The external scanner is an input of the model: a function from the state of
  the file system and the command that is run to the error returned by
  `cmd.Run` and the two captured streams.
* The file system maps resolved paths to entries.  Failures of the file system
  calls whose cause is outside the model (permissions, full disk) are inputs
  too (`Faults`), the failure of the deferred `os.Remove` included.
* `log.Printf` and `fmt.Println` only write diagnostics and are left out.
-/

namespace Licenser

/-! ## Strings -/

/-- Go `strings.HasPrefix s p`. -/
def hasPrefix : List Char → List Char → Bool
  | _, [] => true
  | [], _ :: _ => false
  | c :: s, d :: p => c == d && hasPrefix s p

/-- Go `strings.Contains s substr`: `substr` starts at some position of `s`. -/
def contains : List Char → List Char → Bool
  | [], substr => hasPrefix [] substr
  | c :: s, substr => hasPrefix (c :: s) substr || contains s substr

/-- Go `strings.Split s "\n"`: the pieces between the newlines of `s`, in
order; a text without newline is its own single piece. -/
def splitLines : List Char → List (List Char)
  | [] => [[]]
  | c :: s =>
    if c = '\n' then [] :: splitLines s
    else
      match splitLines s with
      | [] => [[c]]
      | l :: ls => (c :: l) :: ls

/-- Go `strings.Join elems sep`. -/
def joinStrings (elems : List String) (sep : String) : String :=
  sep.intercalate elems

/-! ## Paths, commands and the external scanner -/

/-- A path as the Go code handles it: absolute or relative to the working
directory of the process that resolves it, with its components. -/
structure GoPath where
  isAbs : Bool
  elems : List String
deriving DecidableEq, Repr

/-- The relative path `.`. -/
def GoPath.dot : GoPath := ⟨false, []⟩

/-- A relative path given by its components. -/
def GoPath.rel (elems : List String) : GoPath := ⟨false, elems⟩

/-- Go `filepath.Join p name` for a single component `name`. -/
def GoPath.join (p : GoPath) (name : String) : GoPath :=
  ⟨p.isAbs, p.elems ++ [name]⟩

/-- Go `filepath.Dir p`. -/
def GoPath.parent (p : GoPath) : GoPath :=
  ⟨p.isAbs, p.elems.dropLast⟩

/-- The text of a path, as `%s` prints it. -/
def GoPath.render (p : GoPath) : String :=
  if p.isAbs then "/" ++ "/".intercalate p.elems
  else if p.elems.isEmpty then "." else "/".intercalate p.elems

/-- The location a path names for a process whose working directory is
`cwd` (a list of components from the root of the file system). -/
def resolve (cwd : List String) (p : GoPath) : List String :=
  if p.isAbs then p.elems else cwd ++ p.elems

/-- An `exec.Cmd`: program, arguments and the field `Dir`. -/
structure Cmd where
  name : String
  args : List String
  dir : GoPath
deriving DecidableEq, Repr

/-- What `cmd.Run` leaves behind: its error (`none` exactly when the program
started and exited with status zero) and the two captured streams. -/
structure RunResult where
  err : Option String
  stdout : List Char
  stderr : List Char
deriving DecidableEq, Repr

/-! ## Check mode -/

/-- The four substrings that `checkGoLicenses` looks for. -/
def markers : List (List Char) :=
  ["Reciprocal license type".toList, "Forbidden license type".toList,
   "Notice license type".toList, "Restricted license type".toList]

/-- The condition of the `if` inside the loop of `checkGoLicenses`. -/
def isViolationLine (line : List Char) : Bool :=
  contains line "Reciprocal license type".toList ||
  contains line "Forbidden license type".toList ||
  contains line "Notice license type".toList ||
  contains line "Restricted license type".toList

/-- The Go map `map[string]bool` used as a set: the list of its keys, each
once.  `len` of the map is the length of the list. -/
abbrev Violations := List (List Char)

/-- The assignment `foundViolations[line] = true`. -/
def Violations.set (m : Violations) (line : List Char) : Violations :=
  if line ∈ m then m else m ++ [line]

/-- The loop `for i := 0; i < len(lines); i++` of `checkGoLicenses`. -/
def scanLines : List (List Char) → Violations → Violations
  | [], m => m
  | line :: rest, m =>
    if isViolationLine line then scanLines rest (m.set line) else scanLines rest m

/-- The command built by `checkGoLicenses`. -/
def checkCommand (dir : GoPath) (disallowed : List String) : Cmd :=
  ⟨"go-licenses", ["check", ".", "--disallowed_types=" ++ joinStrings disallowed ","], dir⟩

/-- Go `checkGoLicenses dir disallowed`, with the scanner `run` as an input.
The second component is the returned error. -/
def checkGoLicenses (run : Cmd → RunResult) (dir : GoPath) (disallowed : List String) :
    Violations × Option String :=
  let foundViolations : Violations := []
  let r := run (checkCommand dir disallowed)
  let foundViolations :=
    match r.err with
    | some _ => scanLines (splitLines r.stderr) foundViolations
    | none => foundViolations
  (foundViolations, none)

/-- Go `fmt.Errorf("Found %d violations in %s\n", n, dir)`. -/
def violationsMessage (n : Nat) (dir : GoPath) : String :=
  "Found " ++ Nat.repr n ++ " violations in " ++ dir.render ++ "\n"

/-- The part of the closure given to `g.Go` by the check handler that follows
the call of `checkGoLicenses`: `res` is what the call returned. -/
def checkOutcome (dir : GoPath) (res : Violations × Option String) : Option String :=
  match res.2 with
  | some err => some ("Error checking licenses: " ++ err ++ "\n")
  | none =>
    if res.1.length > 0 then some (violationsMessage res.1.length dir)
    else none

/-- The closure given to `g.Go` by the check handler, for one module root. -/
def checkTask (run : Cmd → RunResult) (disallowed : List String) (dir : GoPath) :
    Option String :=
  checkOutcome dir (checkGoLicenses run dir disallowed)

/-! ## The directory locator -/

/-- An entry of the directory tree as `filepath.Walk` meets it.  A directory
lists its entries in the order of `readDirNames`. -/
inductive Node where
  /-- An entry that is not a directory. -/
  | file (name : String)
  /-- A directory whose listing succeeds. -/
  | dir (name : String) (children : List Node)
  /-- A directory whose listing fails with `err`. -/
  | unreadable (name : String) (err : String)
  /-- An entry on which `os.Lstat` fails with `err`. -/
  | broken (name : String) (err : String)

/-- The name of an entry: `info.Name()`, and the component `filepath.Walk`
joins to the path of the directory. -/
def Node.name : Node → String
  | .file n => n
  | .dir n _ => n
  | .unreadable n _ => n
  | .broken n _ => n

/-- The function literal passed to `filepath.Walk` by `findGoModDirs`: `name`
is `info.Name()`, `err` the error handed in by the walk, `dirs` the captured
slice. -/
def visit (path : GoPath) (name : String) (err : Option String) (dirs : List GoPath) :
    Except String (List GoPath) :=
  match err with
  | some e => .error e
  | none =>
    if name = "go.mod" then .ok (dirs ++ [path.parent])
    else .ok dirs

mutual
/-- Go `filepath.walk path info fn` on the entry found at `path`; for an entry
on which `Lstat` fails, the call of the function with that error. -/
def walk (path : GoPath) : Node → List GoPath → Except String (List GoPath)
  | .file name, dirs => visit path name none dirs
  | .dir name children, dirs =>
    match visit path name none dirs with
    | .error e => .error e
    | .ok dirs1 => walkNames path children dirs1
  | .unreadable name err, dirs => visit path name (some err) dirs
  | .broken name err, dirs => visit path name (some err) dirs
/-- The loop `for _, name := range names` of `filepath.walk`. -/
def walkNames (path : GoPath) : List Node → List GoPath → Except String (List GoPath)
  | [], dirs => .ok dirs
  | c :: rest, dirs =>
    match walk (path.join c.name) c dirs with
    | .error e => .error e
    | .ok dirs1 => walkNames path rest dirs1
end

/-- Go `findGoModDirs rootDir`, with the tree found at `rootDir` as an input. -/
def findGoModDirs (rootDir : GoPath) (tree : Node) : Except String (List GoPath) :=
  match walk rootDir tree [] with
  | .error e => .error e
  | .ok dirs => .ok dirs


/-! ## The file system and the process -/

/-- What a resolved path holds: a file with its content, or a directory. -/
inductive Entry where
  | file (content : List Char)
  | dir
deriving DecidableEq, Repr

/-- The file system: what each resolved path holds, if anything. -/
abbrev FS := List String → Option Entry

/-- The file system with `e` at `p`. -/
def FS.put (fs : FS) (p : List String) (e : Entry) : FS :=
  fun q => if q = p then some e else fs q

/-- The file system with nothing at `p`. -/
def FS.erase (fs : FS) (p : List String) : FS :=
  fun q => if q = p then none else fs q

/-- The state the tool acts on: its working directory and the file system. -/
structure World where
  cwd : List String
  fs : FS

/-- The external scanner: what `cmd.Run` yields for a command started in a
given state. -/
abbrev Scanner := World → Cmd → RunResult

/-- The failures of the file system calls of one `generateLicensesReport` that
have a cause outside the model.  `copy` carries the number of bytes written
before the failure.  `remove` is the error of the deferred `os.Remove`, for
instance in a directory without write permission. -/
structure Faults where
  writeFile : Option String
  mkdirAll : Option String
  create : Option String
  copy : Option (Nat × String)
  remove : Option String

/-- No failure from outside the model. -/
def Faults.none : Faults :=
  ⟨Option.none, Option.none, Option.none, Option.none, Option.none⟩

/-- Go `os.WriteFile name data perm`. -/
def osWriteFile (fault : Option String) (w : World) (name : GoPath) (data : List Char) :
    World × Option String :=
  match fault with
  | some e => (w, some e)
  | none =>
    match w.fs (resolve w.cwd name) with
    | some .dir => (w, some "is a directory")
    | _ => (⟨w.cwd, w.fs.put (resolve w.cwd name) (.file data)⟩, none)

/-- Go `os.Remove name`, for a caller that discards the error: when the call
fails the entry stays. -/
def osRemove (fault : Option String) (w : World) (name : GoPath) : World :=
  match fault with
  | some _ => w
  | none => ⟨w.cwd, w.fs.erase (resolve w.cwd name)⟩

/-- Go `os.MkdirAll path perm` for a path of one component. -/
def osMkdirAll (fault : Option String) (w : World) (path : GoPath) : World × Option String :=
  match w.fs (resolve w.cwd path) with
  | some .dir => (w, none)
  | some (.file _) => (w, some "not a directory")
  | none =>
    match fault with
    | some e => (w, some e)
    | none => (⟨w.cwd, w.fs.put (resolve w.cwd path) .dir⟩, none)

/-- Go `os.Create name`: the file is created or truncated. -/
def osCreate (fault : Option String) (w : World) (name : GoPath) : World × Option String :=
  match w.fs (resolve w.cwd name) with
  | some .dir => (w, some "is a directory")
  | _ =>
    match fault with
    | some e => (w, some e)
    | none => (⟨w.cwd, w.fs.put (resolve w.cwd name) (.file [])⟩, none)

/-- Go `io.Copy file src` into the file just created at `name`. -/
def ioCopy (fault : Option (Nat × String)) (w : World) (name : GoPath) (src : List Char) :
    World × Option String :=
  match fault with
  | some (n, e) => (⟨w.cwd, w.fs.put (resolve w.cwd name) (.file (src.take n))⟩, some e)
  | none => (⟨w.cwd, w.fs.put (resolve w.cwd name) (.file src)⟩, none)

/-! ## Report mode -/

/-- The constant `template` of `constants.go`. -/
def template : List Char :=
  ("---\nhub-title: Licenses\n---\n\n" ++
   "The following tools / packages are used in this plugin:\n\n" ++
   "| Name | License |\n|------|---------|\n" ++
   "\x7b\x7b- range . \x7d\x7d\n" ++
   "\x7b\x7b- if ne .LicenseName \"Unknown\" \x7d\x7d\n" ++
   "| \x7b\x7b .Name \x7d\x7d | \x7b\x7b .LicenseName \x7d\x7d |\n" ++
   "\x7b\x7b- end \x7d\x7d\n" ++
   "\x7b\x7b- end \x7d\x7d").toList

/-- The name `template.tpl` as `generateLicensesReport` writes it. -/
def templateFile : GoPath := GoPath.rel ["template.tpl"]

/-- The name `docs`. -/
def docsDir : GoPath := GoPath.rel ["docs"]

/-- The name `docs/_licenses.md`. -/
def reportFile : GoPath := GoPath.rel ["docs", "_licenses.md"]

/-- The command built by `generateLicensesReport`. -/
def reportCommand (dir : GoPath) : Cmd :=
  ⟨"go-licenses", ["report", ".", "--template=template.tpl"], dir⟩

/-- The working directory of a command started by a process in state `w`:
the field `Dir`, resolved by that process. -/
def Cmd.workDir (c : Cmd) (w : World) : List String :=
  resolve w.cwd c.dir

/-- The state in which `generateLicensesReport` starts the scanner: the one
left by `os.WriteFile "template.tpl"`. -/
def stateAtRun (faults : Faults) (w : World) : World × Option String :=
  osWriteFile faults.writeFile w templateFile template

/-- The statements of `generateLicensesReport` that follow the `defer`. -/
def reportBody (run : Scanner) (faults : Faults) (dir : GoPath) (w : World) :
    World × Option String :=
  let r := run w (reportCommand dir)
  match r.err with
  | some e => (w, some e)
  | none =>
    match osMkdirAll faults.mkdirAll w docsDir with
    | (w1, some e) => (w1, some e)
    | (w1, none) =>
      match osCreate faults.create w1 reportFile with
      | (w2, some e) => (w2, some e)
      | (w2, none) => ioCopy faults.copy w2 reportFile r.stdout

/-- Go `generateLicensesReport dir`: the state it leaves and its error. -/
def generateLicensesReport (run : Scanner) (faults : Faults) (dir : GoPath) (w : World) :
    World × Option String :=
  match stateAtRun faults w with
  | (w1, some e) => (w1, some e)
  | (w1, none) =>
    let res := reportBody run faults dir w1
    (osRemove faults.remove res.1 templateFile, res.2)

/-! ## The command handlers -/

/-- How a task or a handler ends: `nil`, an error, or `log.Fatalf`, which
ends the process. -/
inductive Outcome where
  | ok
  | error (msg : String)
  | fatal (msg : String)
deriving DecidableEq, Repr

/-- The worker pool, reduced to the roots whose task was given to `g.Go`, in
the order of submission. -/
abbrev Group := List GoPath

/-- Go `g.Go(...)` with the closure of root `dir`. -/
def Group.go (g : Group) (dir : GoPath) : Group := g ++ [dir]

/-- Go `g.Wait()`, for the schedule that runs the submitted tasks one after
the other in the order of submission: every submitted task runs, and the
first error met is returned.  A task ending in `log.Fatalf` ends the run. -/
def Group.wait (task : GoPath → World → World × Outcome) :
    Group → World → Option String → World × Outcome
  | [], w, first =>
    (w, match first with
        | some e => .error e
        | none => .ok)
  | dir :: rest, w, first =>
    match task dir w with
    | (w1, .fatal m) => (w1, .fatal m)
    | (w1, .error e) => Group.wait task rest w1 (first.orElse fun _ => some e)
    | (w1, .ok) => Group.wait task rest w1 first

/-- What a handler did: the roots it submitted, how it ended, and the state
it left. -/
structure HandlerRun where
  submitted : List GoPath
  result : Outcome
  world : World

/-- The loop `for _, dir := range dirs` of both handlers: its body submits the
task of `dir` and then executes `return g.Wait()`.  The flag says whether the
handler returned from inside the loop. -/
def dispatchLoop : List GoPath → Group → Group × Bool
  | [], g => (g, false)
  | dir :: _, g => (g.go dir, true)

/-- The body of both handlers after the call of `findGoModDirs`. -/
def runHandler (task : GoPath → World → World × Outcome)
    (found : Except String (List GoPath)) (w : World) : HandlerRun :=
  match found with
  | .error e => ⟨[], .error ("Error finding go.mod directories: " ++ e ++ "\n"), w⟩
  | .ok dirs =>
    if dirs.length = 0 then ⟨[], .error "no directories with go.mod found", w⟩
    else
      match dispatchLoop dirs [] with
      | (g, true) =>
        let r := Group.wait task g w none
        ⟨g, r.2, r.1⟩
      | (g, false) => ⟨g, .ok, w⟩

/-- The closure of the check handler as a task of the pool. -/
def checkClosure (run : Scanner) (disallowed : List String) (dir : GoPath) (w : World) :
    World × Outcome :=
  match checkTask (run w) disallowed dir with
  | some e => (w, .error e)
  | none => (w, .ok)

/-- The closure of the report handler as a task of the pool. -/
def reportClosure (run : Scanner) (faults : GoPath → Faults) (dir : GoPath) (w : World) :
    World × Outcome :=
  match generateLicensesReport run (faults dir) dir w with
  | (w1, some e) => (w1, .fatal ("Error generating report: " ++ e ++ "\n"))
  | (w1, none) => (w1, .ok)

/-- The function `RunE` of the `check` command: `root` is `args[0]`, `tree`
what is found there. -/
def checkRunE (run : Scanner) (disallowed : List String) (root : GoPath) (tree : Node)
    (w : World) : HandlerRun :=
  runHandler (checkClosure run disallowed) (findGoModDirs root tree) w

/-- The function `RunE` of the `report` command. -/
def reportRunE (run : Scanner) (faults : GoPath → Faults) (root : GoPath) (tree : Node)
    (w : World) : HandlerRun :=
  runHandler (reportClosure run faults) (findGoModDirs root tree) w

/-- The default of the flag `--disallowed_types`. -/
def defaultDisallowed : List String := ["forbidden", "restricted"]

end Licenser

namespace Licenser

/-! ## Check mode: sample scanners -/

/-- A scanner that exits with status zero although its standard error holds
a marker line. -/
def zeroExitWithMarker : Cmd → RunResult :=
  fun _ => ⟨none, [], "Forbidden license type: X".toList⟩

/-- A scanner that exits with status one and reports two violations. -/
def twoViolations : Cmd → RunResult :=
  fun _ => ⟨some "exit status 1", [],
    "Forbidden license type: X\nRestricted license type: Y".toList⟩

/-- A scanner that fails without any marker on its standard error. -/
def crashingScanner : Cmd → RunResult :=
  fun _ => ⟨some "exit status 2", [], "go-licenses: cannot load packages\n".toList⟩

/-- A scanner that exits with status zero and an empty standard error. -/
def cleanScanner : Cmd → RunResult :=
  fun _ => ⟨none, [], []⟩

end Licenser

namespace Licenser

/-! ## The directory tree: descriptor files and well-formedness -/

mutual
/-- The paths of the files named `go.mod` in the tree found at `path`. -/
def descriptors (path : GoPath) : Node → List GoPath
  | .file name => if name = "go.mod" then [path] else []
  | .dir _ children => descriptorsIn path children
  | .unreadable _ _ => []
  | .broken _ _ => []
/-- The paths of the files named `go.mod` under the entries of the directory
found at `path`. -/
def descriptorsIn (path : GoPath) : List Node → List GoPath
  | [] => []
  | c :: rest => descriptors (path.join c.name) c ++ descriptorsIn path rest
end

mutual
/-- Every entry of the tree can be inspected and every directory listed. -/
def Node.readable : Node → Bool
  | .file _ => true
  | .dir _ children => readableAll children
  | .unreadable _ _ => false
  | .broken _ _ => false
/-- Every tree of the list is readable. -/
def readableAll : List Node → Bool
  | [] => true
  | c :: rest => c.readable && readableAll rest
end

mutual
/-- No directory of the tree is named `go.mod`. -/
def Node.noModDir : Node → Bool
  | .file _ => true
  | .dir name children => name != "go.mod" && noModDirAll children
  | .unreadable name _ => name != "go.mod"
  | .broken _ _ => true
/-- No directory of the trees of the list is named `go.mod`. -/
def noModDirAll : List Node → Bool
  | [] => true
  | c :: rest => c.noModDir && noModDirAll rest
end

mutual
/-- The entries of every directory of the tree have pairwise distinct names,
as in any directory. -/
def Node.distinctNames : Node → Bool
  | .file _ => true
  | .dir _ children => decide (namesOf children).Nodup && distinctNamesAll children
  | .unreadable _ _ => true
  | .broken _ _ => true
/-- Every tree of the list has distinct names in each of its directories. -/
def distinctNamesAll : List Node → Bool
  | [] => true
  | c :: rest => c.distinctNames && distinctNamesAll rest
/-- The names of the trees of the list. -/
def namesOf : List Node → List String
  | [] => []
  | c :: rest => c.name :: namesOf rest
end

/-- A tree with an unreadable directory next to a descriptor file. -/
def treeWithUnreadable : Node :=
  .dir "." [.file "go.mod", .unreadable "secret" "permission denied"]

/-- A tree in which a directory is named `go.mod`. -/
def treeWithModDir : Node :=
  .dir "." [.dir "a" [.dir "go.mod" []], .file "go.mod"]

/-- A tree with three module roots. -/
def treeThreeRoots : Node :=
  .dir "." [.dir "a" [.file "go.mod", .file "main.go"],
            .dir "b" [.dir "c" [.file "go.mod"], .file "README.md"],
            .file "go.mod"]

/-- A tree with two module roots `a` and `b`. -/
def treeTwoRoots : Node :=
  .dir "." [.dir "a" [.file "go.mod"], .dir "b" [.file "go.mod"]]

/-- A tree without any descriptor file. -/
def treeNoRoot : Node :=
  .dir "." [.file "main.go", .dir "pkg" [.file "x.go"]]

end Licenser

namespace Licenser

/-! ## Sample states and scanners for report mode and the handlers -/

/-- A file system that holds nothing. -/
def emptyFS : FS := fun _ => none

/-- A process working in `/work` on an empty file system. -/
def sampleWorld : World := ⟨["work"], emptyFS⟩

/-- A module root `sub` below the working directory. -/
def subDir : GoPath := GoPath.rel ["sub"]

/-- One row of a report. -/
def sampleReport : List Char := "| example.com/pkg | MIT |\n".toList

/-- A scanner that exits with status zero and writes one row to its standard
output. -/
def echoScanner : Scanner :=
  fun _ _ => ⟨none, sampleReport, []⟩

/-- A scanner that exits with status one. -/
def failingScanner : Scanner :=
  fun _ _ => ⟨some "exit status 1", [], "boom".toList⟩

/-- A scanner that reads the file `template.tpl` of its working directory: it
writes the row when the file exists and fails otherwise. -/
def templateScanner : Scanner :=
  fun w c =>
    match w.fs (resolve (c.workDir w) templateFile) with
    | some (.file _) => ⟨none, sampleReport, []⟩
    | _ => ⟨some "exit status 1", [], "open template.tpl: no such file or directory".toList⟩

/-- A check scanner that finds two violations in the root `b` and none
elsewhere. -/
def violationsInB : Scanner :=
  fun _ c => if c.dir = GoPath.rel ["b"] then twoViolations c else cleanScanner c

/-- The failure of `os.Create` alone. -/
def createDenied : Faults := ⟨none, none, some "permission denied", none, none⟩

/-- The failure of the deferred `os.Remove` alone. -/
def removeDenied : Faults := ⟨none, none, none, none, some "permission denied"⟩

/-- A process working in `/work`, a directory that already holds a file
`template.tpl`. -/
def worldWithTemplate : World :=
  ⟨["work"], emptyFS.put ["work", "template.tpl"] (.file "stale".toList)⟩

/-- A process working in `/work` whose directory `docs` holds an older
report. -/
def worldWithOldReport : World :=
  ⟨["work"], (emptyFS.put ["work", "docs"] .dir).put ["work", "docs", "_licenses.md"]
    (.file "old".toList)⟩

/-- No failure from outside the model, for every root. -/
def noFaults : GoPath → Faults := fun _ => Faults.none

end Licenser

namespace Licenser

/-! ## Facts about the string functions -/

theorem hasPrefix_iff (s p : List Char) : hasPrefix s p = true ↔ p <+: s := by
  induction s generalizing p with
  | nil =>
    cases p with
    | nil => simp [hasPrefix]
    | cons d p => simp [hasPrefix]
  | cons c s ih =>
    cases p with
    | nil => simp [hasPrefix]
    | cons d p =>
      simp only [hasPrefix, Bool.and_eq_true, beq_iff_eq, ih, List.cons_prefix_cons]
      constructor
      · rintro ⟨h1, h2⟩
        exact ⟨h1.symm, h2⟩
      · rintro ⟨h1, h2⟩
        exact ⟨h1.symm, h2⟩

theorem contains_iff (s sub : List Char) : contains s sub = true ↔ sub <:+: s := by
  induction s with
  | nil =>
    rw [contains, hasPrefix_iff]
    simp
  | cons c s ih =>
    rw [contains, Bool.or_eq_true, hasPrefix_iff, ih, List.infix_cons_iff]

theorem isViolationLine_iff (line : List Char) :
    isViolationLine line = true ↔ ∃ m ∈ markers, m <:+: line := by
  simp only [isViolationLine, Bool.or_eq_true, contains_iff, markers, List.mem_cons,
    List.mem_singleton, exists_eq_or_imp, exists_eq_left, List.not_mem_nil, false_and,
    exists_false, or_false, or_assoc]

theorem splitLines_ne_nil (s : List Char) : splitLines s ≠ [] := by
  cases s with
  | nil => simp [splitLines]
  | cons c s =>
    unfold splitLines
    split
    · simp
    · split <;> simp

theorem splitLines_of_no_newline (l : List Char) (h : '\n' ∉ l) : splitLines l = [l] := by
  induction l with
  | nil => rfl
  | cons c l ih =>
    have hc : c ≠ '\n' := fun e => h (by simp [e])
    have hl : '\n' ∉ l := fun e => h (by simp [e])
    simp [splitLines, hc, ih hl]

theorem splitLines_append_newline (l s : List Char) (h : '\n' ∉ l) :
    splitLines (l ++ '\n' :: s) = l :: splitLines s := by
  induction l with
  | nil => simp [splitLines]
  | cons c l ih =>
    have hc : c ≠ '\n' := fun e => h (by simp [e])
    have hl : '\n' ∉ l := fun e => h (by simp [e])
    simp [splitLines, hc, ih hl]

/-- The model of `strings.Split s "\n"` agrees with the library function that
splits a list at every occurrence of an element. -/
theorem splitLines_eq_splitOn (s : List Char) : splitLines s = s.splitOn '\n' := by
  induction s with
  | nil => rfl
  | cons c s ih =>
    rw [List.splitOn, List.splitOnP_cons]
    by_cases hc : c = '\n'
    · simp only [splitLines, hc, if_true, beq_self_eq_true]
      rw [← List.splitOn, ← ih]
    · have hne := splitLines_ne_nil s
      simp only [splitLines, hc, if_false, beq_iff_eq]
      rw [← List.splitOn, ← ih]
      cases h : splitLines s with
      | nil => exact absurd h hne
      | cons l ls => simp [List.modifyHead]

/-! ## Facts about the violation record -/

theorem mem_set (m : Violations) (line x : List Char) :
    x ∈ m.set line ↔ x ∈ m ∨ x = line := by
  unfold Violations.set
  split
  · constructor
    · exact fun h => Or.inl h
    · rintro (h | h)
      · exact h
      · subst h; assumption
  · simp

theorem nodup_set (m : Violations) (line : List Char) (h : m.Nodup) : (m.set line).Nodup := by
  unfold Violations.set
  split
  · exact h
  · rename_i hn
    rw [List.nodup_append]
    refine ⟨h, List.nodup_singleton _, ?_⟩
    intro a ha hb
    simp at hb
    subst hb
    exact hn ha

theorem mem_scanLines (lines : List (List Char)) (m : Violations) (x : List Char) :
    x ∈ scanLines lines m ↔ x ∈ m ∨ (x ∈ lines ∧ isViolationLine x = true) := by
  induction lines generalizing m with
  | nil => simp [scanLines]
  | cons l rest ih =>
    unfold scanLines
    by_cases hl : isViolationLine l = true
    · rw [if_pos hl, ih, mem_set]
      constructor
      · rintro ((h | h) | h)
        · exact Or.inl h
        · exact Or.inr ⟨by simp [h], by rw [h]; exact hl⟩
        · exact Or.inr ⟨by simp [h.1], h.2⟩
      · rintro (h | ⟨h1, h2⟩)
        · exact Or.inl (Or.inl h)
        · rcases List.mem_cons.mp h1 with h | h
          · exact Or.inl (Or.inr h)
          · exact Or.inr ⟨h, h2⟩
    · rw [if_neg hl, ih]
      constructor
      · rintro (h | h)
        · exact Or.inl h
        · exact Or.inr ⟨by simp [h.1], h.2⟩
      · rintro (h | ⟨h1, h2⟩)
        · exact Or.inl h
        · rcases List.mem_cons.mp h1 with h | h
          · subst h; exact absurd h2 hl
          · exact Or.inr ⟨h, h2⟩

theorem nodup_scanLines (lines : List (List Char)) (m : Violations) (h : m.Nodup) :
    (scanLines lines m).Nodup := by
  induction lines generalizing m with
  | nil => simpa [scanLines] using h
  | cons l rest ih =>
    unfold scanLines
    split
    · exact ih _ (nodup_set m l h)
    · exact ih _ h

end Licenser

namespace Licenser

/-! ## Check mode: the claims -/

theorem checkGoLicenses_of_error (run : Cmd → RunResult) (dir : GoPath)
    (disallowed : List String) (e : String)
    (h : (run (checkCommand dir disallowed)).err = some e) :
    checkGoLicenses run dir disallowed =
      (scanLines (splitLines (run (checkCommand dir disallowed)).stderr) [], none) := by
  simp only [checkGoLicenses, h]

theorem checkGoLicenses_of_success (run : Cmd → RunResult) (dir : GoPath)
    (disallowed : List String) (h : (run (checkCommand dir disallowed)).err = none) :
    checkGoLicenses run dir disallowed = ([], none) := by
  simp only [checkGoLicenses, h]

theorem nodup_checkGoLicenses (run : Cmd → RunResult) (dir : GoPath)
    (disallowed : List String) : (checkGoLicenses run dir disallowed).1.Nodup := by
  cases he : (run (checkCommand dir disallowed)).err with
  | none =>
    rw [checkGoLicenses_of_success run dir disallowed he]
    exact List.nodup_nil
  | some e =>
    rw [checkGoLicenses_of_error run dir disallowed e he]
    exact nodup_scanLines _ _ List.nodup_nil

/-- C2, as stated, fails: for a scanner that exits with status zero and whose
standard error is the line `Forbidden license type: X`, that line is a line of
the text holding a marker, and the record returned by `checkGoLicenses` is
empty, so the record is not the set of marker lines. -/
theorem checkGoLicenses_zero_exit_ignores_markers :
    ¬ (∀ line : List Char,
        line ∈ (checkGoLicenses zeroExitWithMarker GoPath.dot defaultDisallowed).1 ↔
          line ∈ (zeroExitWithMarker (checkCommand GoPath.dot defaultDisallowed)).stderr.splitOn '\n' ∧
            ∃ m ∈ markers, m <:+: line) := by
  intro h
  have h1 := (h "Forbidden license type: X".toList).mpr
    ⟨by rw [← splitLines_eq_splitOn]; decide,
     (isViolationLine_iff _).mp (by decide)⟩
  revert h1
  decide

/-- C2 (amended): whenever `cmd.Run` returns an error (the scanner exits with a
nonzero status), the record returned by `checkGoLicenses` is exactly the set of
lines of the captured standard error, split at every newline, that contain one
of the four markers; no line is held twice; and for a standard error made of
the two lines `Forbidden license type: x` and `Restricted license type: y` the
record holds exactly these two lines, so its count is 2. -/
theorem checkGoLicenses_record_of_failed_run (run : Cmd → RunResult) (dir : GoPath)
    (disallowed : List String) (hfail : (run (checkCommand dir disallowed)).err ≠ none) :
    (∀ line : List Char,
        line ∈ (checkGoLicenses run dir disallowed).1 ↔
          line ∈ (run (checkCommand dir disallowed)).stderr.splitOn '\n' ∧
            ∃ m ∈ markers, m <:+: line) ∧
    (checkGoLicenses run dir disallowed).1.Nodup ∧
    (∀ x y : List Char, '\n' ∉ x → '\n' ∉ y →
      (run (checkCommand dir disallowed)).stderr =
        "Forbidden license type: ".toList ++ x ++
          '\n' :: ("Restricted license type: ".toList ++ y) →
      (checkGoLicenses run dir disallowed).1 =
        ["Forbidden license type: ".toList ++ x, "Restricted license type: ".toList ++ y] ∧
      (checkGoLicenses run dir disallowed).1.length = 2) := by
  have hrec : (checkGoLicenses run dir disallowed).1 =
      scanLines (splitLines (run (checkCommand dir disallowed)).stderr) [] := by
    cases he : (run (checkCommand dir disallowed)).err with
    | none => exact absurd he hfail
    | some e => rw [checkGoLicenses_of_error run dir disallowed e he]
  refine ⟨?_, ?_, ?_⟩
  · intro line
    rw [hrec, mem_scanLines, ← splitLines_eq_splitOn, isViolationLine_iff]
    simp
  · rw [hrec]
    exact nodup_scanLines _ _ List.nodup_nil
  · intro x y hx hy hs
    have hF : '\n' ∉ "Forbidden license type: ".toList ++ x := by
      intro hmem
      rcases List.mem_append.mp hmem with h | h
      · revert h; decide
      · exact hx h
    have hR : '\n' ∉ "Restricted license type: ".toList ++ y := by
      intro hmem
      rcases List.mem_append.mp hmem with h | h
      · revert h; decide
      · exact hy h
    have hvF : isViolationLine ("Forbidden license type: ".toList ++ x) = true := by
      rw [isViolationLine_iff]
      exact ⟨"Forbidden license type".toList, by simp [markers],
        ⟨[], ": ".toList ++ x, by simp⟩⟩
    have hvR : isViolationLine ("Restricted license type: ".toList ++ y) = true := by
      rw [isViolationLine_iff]
      exact ⟨"Restricted license type".toList, by simp [markers],
        ⟨[], ": ".toList ++ y, by simp⟩⟩
    have hne : "Restricted license type: ".toList ++ y ≠ "Forbidden license type: ".toList ++ x := by
      intro e
      have h1 : ("Restricted license type: ".toList ++ y).head? = some 'R' := rfl
      have h2 : ("Forbidden license type: ".toList ++ x).head? = some 'F' := rfl
      rw [e, h2] at h1
      revert h1
      decide
    have hlist : (checkGoLicenses run dir disallowed).1 =
        ["Forbidden license type: ".toList ++ x, "Restricted license type: ".toList ++ y] := by
      rw [hrec, hs, splitLines_append_newline _ _ hF, splitLines_of_no_newline _ hR]
      rw [scanLines, if_pos hvF, scanLines, if_pos hvR, scanLines]
      have hnot : "Restricted license type: ".toList ++ y ∉
          Violations.set [] ("Forbidden license type: ".toList ++ x) := by
        rw [mem_set]
        rintro (h | h)
        · exact absurd h (List.not_mem_nil _)
        · exact hne h
      rw [Violations.set, if_neg hnot]
      rfl
    exact ⟨hlist, by rw [hlist]; rfl⟩

/-- Witness of C2 (amended), at a scanner that exits with status one and whose
standard error is the two lines of the test of the specification. -/
theorem checkGoLicenses_record_of_failed_run_witness :
    (twoViolations (checkCommand GoPath.dot defaultDisallowed)).err ≠ none ∧
    (checkGoLicenses twoViolations GoPath.dot defaultDisallowed).1 =
        ["Forbidden license type: X".toList, "Restricted license type: Y".toList] ∧
    (checkGoLicenses twoViolations GoPath.dot defaultDisallowed).1.length = 2 :=
  ⟨by decide,
   (checkGoLicenses_record_of_failed_run twoViolations GoPath.dot defaultDisallowed
      (by decide)).2.2 "X".toList "Y".toList (by decide) (by decide) (by decide)⟩

/-- C3: at a scanner that exits with status two and writes no marker line to
its standard error, `checkGoLicenses` returns an empty record and no error, and
the task of the root succeeds. -/
theorem checkGoLicenses_swallows_scanner_failure :
    (crashingScanner (checkCommand GoPath.dot defaultDisallowed)).err = some "exit status 2" ∧
    (∀ line ∈ splitLines (crashingScanner (checkCommand GoPath.dot defaultDisallowed)).stderr,
      isViolationLine line = false) ∧
    checkGoLicenses crashingScanner GoPath.dot defaultDisallowed = ([], none) ∧
    checkTask crashingScanner defaultDisallowed GoPath.dot = none := by
  decide

/-- C4: for every module root `dir` and every record `v` returned for it, the
task of the check handler returns an error exactly when the record holds at
least one line, and the error is `Found n violations in dir` followed by a
newline, `n` being the number of lines of the record; the record returned by
`checkGoLicenses` holds no line twice, so that `n` counts distinct
violations. -/
theorem checkOutcome_error_iff_violations (run : Cmd → RunResult) (disallowed : List String)
    (dir : GoPath) (v : Violations) :
    (checkOutcome dir (v, none) ≠ none ↔ 0 < v.length) ∧
    (checkOutcome dir (v, none) = none ∨
      checkOutcome dir (v, none) =
        some ("Found " ++ Nat.repr v.length ++ " violations in " ++ dir.render ++ "\n")) ∧
    (checkGoLicenses run dir disallowed).1.Nodup ∧
    checkTask run disallowed dir = checkOutcome dir ((checkGoLicenses run dir disallowed).1, none) := by
  refine ⟨?_, ?_, ?_, ?_⟩
  · by_cases h : 0 < v.length <;> simp [checkOutcome, h]
  · by_cases h : 0 < v.length
    · right
      simp [checkOutcome, h, violationsMessage]
    · left
      simp [checkOutcome, h]
  · exact nodup_checkGoLicenses run dir disallowed
  · rfl

/-- C9: whenever the scanner exits with status zero (`cmd.Run` returns no
error), `checkGoLicenses` returns the empty record and no error, whatever the
standard error holds, and the task of the root returns no error. -/
theorem checkGoLicenses_zero_exit (run : Cmd → RunResult) (dir : GoPath)
    (disallowed : List String) (hzero : (run (checkCommand dir disallowed)).err = none) :
    checkGoLicenses run dir disallowed = ([], none) ∧
    checkTask run disallowed dir = none := by
  have h : checkGoLicenses run dir disallowed = ([], none) :=
    checkGoLicenses_of_success run dir disallowed hzero
  exact ⟨h, by simp [checkTask, h, checkOutcome]⟩

/-- Witness of C9, at a scanner that exits with status zero and an empty
standard error. -/
theorem checkGoLicenses_zero_exit_witness :
    (cleanScanner (checkCommand GoPath.dot defaultDisallowed)).err = none ∧
    checkGoLicenses cleanScanner GoPath.dot defaultDisallowed = ([], none) ∧
    checkTask cleanScanner defaultDisallowed GoPath.dot = none :=
  ⟨rfl, checkGoLicenses_zero_exit cleanScanner GoPath.dot defaultDisallowed rfl⟩

end Licenser

namespace Licenser

/-! ## Facts about the directory locator -/

theorem parent_join (p : GoPath) (name : String) : (p.join name).parent = p := by
  cases p with
  | mk a es => simp [GoPath.join, GoPath.parent]

mutual
theorem walk_of_readable (path : GoPath) : (t : Node) → (dirs : List GoPath) →
    t.readable = true → t.noModDir = true →
    walk path t dirs = .ok (dirs ++ (descriptors path t).map GoPath.parent)
  | .file name, dirs, _, _ => by
    simp only [walk, visit, descriptors]
    split <;> simp
  | .dir name children, dirs, hr, hm => by
    simp only [Node.noModDir, Bool.and_eq_true, bne_iff_ne, ne_eq] at hm
    simp only [Node.readable] at hr
    simp only [walk, visit, hm.1, if_false, descriptors]
    exact walkNames_of_readable path children dirs hr hm.2
  | .unreadable _ _, _, hr, _ => by simp [Node.readable] at hr
  | .broken _ _, _, hr, _ => by simp [Node.readable] at hr
theorem walkNames_of_readable (path : GoPath) : (cs : List Node) → (dirs : List GoPath) →
    readableAll cs = true → noModDirAll cs = true →
    walkNames path cs dirs = .ok (dirs ++ (descriptorsIn path cs).map GoPath.parent)
  | [], dirs, _, _ => by simp [walkNames, descriptorsIn]
  | c :: rest, dirs, hr, hm => by
    simp only [readableAll, Bool.and_eq_true] at hr
    simp only [noModDirAll, Bool.and_eq_true] at hm
    rw [walkNames, walk_of_readable (path.join c.name) c dirs hr.1 hm.1]
    simp only
    rw [walkNames_of_readable path rest _ hr.2 hm.2, descriptorsIn]
    simp
end

theorem mem_descriptorsIn (path : GoPath) (cs : List Node) (f : GoPath) :
    f ∈ descriptorsIn path cs ↔ ∃ c ∈ cs, f ∈ descriptors (path.join c.name) c := by
  induction cs with
  | nil => simp [descriptorsIn]
  | cons c rest ih => simp [descriptorsIn, ih]

theorem mem_namesOf (cs : List Node) (c : Node) (h : c ∈ cs) : c.name ∈ namesOf cs := by
  induction cs with
  | nil => simp at h
  | cons a rest ih =>
    rcases List.mem_cons.mp h with h | h
    · simp [namesOf, h]
    · simp [namesOf, ih h]

mutual
/-- A descriptor file of the tree found at `q` is the entry at `q` itself, a
file named `go.mod`, or lies strictly below `q`. -/
theorem descriptors_below (q : GoPath) : (t : Node) → (f : GoPath) → f ∈ descriptors q t →
    (f = q ∧ t.name = "go.mod") ∨ (∃ r, r ≠ [] ∧ f.elems = q.elems ++ r ∧ f.isAbs = q.isAbs)
  | .file name, f, h => by
    simp only [descriptors] at h
    split at h
    · rename_i hn
      simp at h
      exact Or.inl ⟨h, hn⟩
    · simp at h
  | .dir name children, f, h => by
    simp only [descriptors] at h
    exact Or.inr (descriptorsIn_below q children f h)
  | .unreadable _ _, f, h => by simp [descriptors] at h
  | .broken _ _, f, h => by simp [descriptors] at h
theorem descriptorsIn_below (q : GoPath) : (cs : List Node) → (f : GoPath) →
    f ∈ descriptorsIn q cs →
    ∃ r, r ≠ [] ∧ f.elems = q.elems ++ r ∧ f.isAbs = q.isAbs
  | [], f, h => by simp [descriptorsIn] at h
  | c :: rest, f, h => by
    simp only [descriptorsIn, List.mem_append] at h
    rcases h with h | h
    · rcases descriptors_below (q.join c.name) c f h with ⟨h1, _⟩ | ⟨r, _, h2, h3⟩
      · exact ⟨[c.name], by simp, by simp [h1, GoPath.join], by simp [h1, GoPath.join]⟩
      · exact ⟨c.name :: r, by simp, by simp [h2, GoPath.join], by simp [h3, GoPath.join]⟩
    · exact descriptorsIn_below q rest f h
end

/-- Where the parent of a descriptor file found under the entry `c` of the
directory `p` lies: it is `p` itself and `c` is named `go.mod`, or it starts
with the path of `c`. -/
theorem parent_of_descriptor (p : GoPath) (c : Node) (d : GoPath)
    (h : d ∈ (descriptors (p.join c.name) c).map GoPath.parent) :
    d.isAbs = p.isAbs ∧
      ((d.elems = p.elems ∧ c.name = "go.mod") ∨ (p.elems ++ [c.name]) <+: d.elems) := by
  rcases List.mem_map.mp h with ⟨f, hf, rfl⟩
  rcases descriptors_below (p.join c.name) c f hf with ⟨h1, h2⟩ | ⟨r, hr, h2, h3⟩
  · subst h1
    rw [parent_join]
    exact ⟨rfl, Or.inl ⟨rfl, h2⟩⟩
  · refine ⟨by simpa [GoPath.parent, GoPath.join] using h3, Or.inr ?_⟩
    refine ⟨r.dropLast, ?_⟩
    simp only [GoPath.parent, h2, GoPath.join]
    rw [List.dropLast_append_of_ne_nil _ hr]

mutual
theorem nodup_parents (q : GoPath) : (t : Node) → t.distinctNames = true →
    ((descriptors q t).map GoPath.parent).Nodup
  | .file name, _ => by
    simp only [descriptors]
    split <;> simp
  | .dir name children, h => by
    simp only [Node.distinctNames, Bool.and_eq_true, decide_eq_true_eq] at h
    simp only [descriptors]
    exact nodup_parentsIn q children h.1 h.2
  | .unreadable _ _, _ => by simp [descriptors]
  | .broken _ _, _ => by simp [descriptors]
theorem nodup_parentsIn (q : GoPath) : (cs : List Node) → (namesOf cs).Nodup →
    distinctNamesAll cs = true → ((descriptorsIn q cs).map GoPath.parent).Nodup
  | [], _, _ => by simp [descriptorsIn]
  | c :: rest, hn, hd => by
    simp only [distinctNamesAll, Bool.and_eq_true] at hd
    simp only [namesOf, List.nodup_cons] at hn
    simp only [descriptorsIn, List.map_append]
    rw [List.nodup_append]
    refine ⟨nodup_parents (q.join c.name) c hd.1, nodup_parentsIn q rest hn.2 hd.2, ?_⟩
    intro d hd1 hd2
    rcases List.mem_map.mp hd2 with ⟨f, hf, hfd⟩
    rcases (mem_descriptorsIn q rest f).mp hf with ⟨c2, hc2, hf2⟩
    have hne : c2.name ≠ c.name := by
      intro e
      exact hn.1 (e ▸ mem_namesOf rest c2 hc2)
    have h1 := parent_of_descriptor q c d hd1
    have h2 := parent_of_descriptor q c2 d (List.mem_map.mpr ⟨f, hf2, hfd⟩)
    rcases h1.2 with ⟨_, hg1⟩ | hp1
    · rcases h2.2 with ⟨_, hg2⟩ | hp2
      · exact hne (hg2.trans hg1.symm)
      · rename_i he
        have := hp2.length_le
        simp [he] at this
    · rcases h2.2 with ⟨he, _⟩ | hp2
      · have := hp1.length_le
        simp [he] at this
      · have := List.prefix_of_prefix_length_le hp1 hp2 (by simp)
        have := this.eq_of_length (by simp)
        simp at this
        exact hne this.symm
end

end Licenser

namespace Licenser

/-! ## The directory locator: the claim -/

/-- C5, as stated, fails on two trees that each hold one descriptor file.  On
the first a directory cannot be listed and `findGoModDirs` returns the error of
the walk and no path.  On the second a directory is named `go.mod`, and
`findGoModDirs` returns two paths, one of them the directory `a`, which holds
no descriptor file. -/
theorem findGoModDirs_not_always_exact :
    (¬ ∃ dirs, findGoModDirs GoPath.dot treeWithUnreadable = .ok dirs ∧ dirs.Nodup ∧
        dirs.length = (descriptors GoPath.dot treeWithUnreadable).length ∧
        ∀ d, d ∈ dirs ↔ ∃ f ∈ descriptors GoPath.dot treeWithUnreadable, f.parent = d) ∧
    (¬ ∃ dirs, findGoModDirs GoPath.dot treeWithModDir = .ok dirs ∧ dirs.Nodup ∧
        dirs.length = (descriptors GoPath.dot treeWithModDir).length ∧
        ∀ d, d ∈ dirs ↔ ∃ f ∈ descriptors GoPath.dot treeWithModDir, f.parent = d) := by
  constructor
  · rintro ⟨dirs, h, _⟩
    have he : findGoModDirs GoPath.dot treeWithUnreadable = .error "permission denied" := rfl
    rw [he] at h
    cases h
  · rintro ⟨dirs, h, _, hlen, _⟩
    have he : findGoModDirs GoPath.dot treeWithModDir =
        .ok [GoPath.rel ["a"], GoPath.dot] := rfl
    rw [he] at h
    cases h
    revert hlen
    decide

/-- C5 (amended): for every tree in which every entry can be read, no
directory is named `go.mod` and the entries of each directory have distinct
names, `findGoModDirs` returns without error exactly the parent directories of
the files named `go.mod`: the paths returned are pairwise distinct, there are
as many of them as descriptor files, and a path is returned exactly when it is
the parent directory of a descriptor file. -/
theorem findGoModDirs_exact (root : GoPath) (tree : Node)
    (hread : tree.readable = true) (hmod : tree.noModDir = true)
    (hnames : tree.distinctNames = true) :
    ∃ dirs, findGoModDirs root tree = .ok dirs ∧ dirs.Nodup ∧
      dirs.length = (descriptors root tree).length ∧
      ∀ d, d ∈ dirs ↔ ∃ f ∈ descriptors root tree, f.parent = d := by
  refine ⟨(descriptors root tree).map GoPath.parent, ?_, ?_, ?_, ?_⟩
  · unfold findGoModDirs
    rw [walk_of_readable root tree [] hread hmod]
    simp
  · exact nodup_parents root tree hnames
  · simp
  · intro d
    simp [List.mem_map]

/-- Witness of C5 (amended), at a tree with three module roots. -/
theorem findGoModDirs_exact_witness :
    treeThreeRoots.readable = true ∧ treeThreeRoots.noModDir = true ∧
    treeThreeRoots.distinctNames = true ∧
    ∃ dirs, findGoModDirs GoPath.dot treeThreeRoots = .ok dirs ∧ dirs.Nodup ∧
      dirs.length = (descriptors GoPath.dot treeThreeRoots).length ∧
      ∀ d, d ∈ dirs ↔ ∃ f ∈ descriptors GoPath.dot treeThreeRoots, f.parent = d :=
  ⟨by decide, by decide, by decide,
   findGoModDirs_exact GoPath.dot treeThreeRoots (by decide) (by decide) (by decide)⟩

end Licenser

namespace Licenser

/-! ## Facts about report mode -/

theorem osWriteFile_cwd (fault : Option String) (w : World) (name : GoPath) (data : List Char) :
    (osWriteFile fault w name data).1.cwd = w.cwd := by
  unfold osWriteFile
  split
  · rfl
  · split <;> rfl

theorem osMkdirAll_cwd (fault : Option String) (w : World) (path : GoPath) :
    (osMkdirAll fault w path).1.cwd = w.cwd := by
  unfold osMkdirAll
  split
  · rfl
  · rfl
  · split <;> rfl

theorem osCreate_cwd (fault : Option String) (w : World) (name : GoPath) :
    (osCreate fault w name).1.cwd = w.cwd := by
  unfold osCreate
  split
  · rfl
  · split <;> rfl

theorem ioCopy_cwd (fault : Option (Nat × String)) (w : World) (name : GoPath)
    (src : List Char) : (ioCopy fault w name src).1.cwd = w.cwd := by
  unfold ioCopy
  split <;> rfl

theorem reportBody_cwd (run : Scanner) (faults : Faults) (dir : GoPath) (w : World) :
    (reportBody run faults dir w).1.cwd = w.cwd := by
  unfold reportBody
  simp only
  split
  · rfl
  · split
    · rename_i h
      have := osMkdirAll_cwd faults.mkdirAll w docsDir
      rw [h] at this
      exact this
    · rename_i w1 h
      have h1 : w1.cwd = w.cwd := by
        have := osMkdirAll_cwd faults.mkdirAll w docsDir
        rw [h] at this
        exact this
      split
      · rename_i h2
        have := osCreate_cwd faults.create w1 reportFile
        rw [h2] at this
        exact this.trans h1
      · rename_i w2 h2
        have h3 : w2.cwd = w1.cwd := by
          have := osCreate_cwd faults.create w1 reportFile
          rw [h2] at this
          exact this
        rw [ioCopy_cwd, h3, h1]

theorem stateAtRun_written (faults : Faults) (w : World)
    (hw : (stateAtRun faults w).2 = none) :
    (stateAtRun faults w).1.fs (resolve w.cwd templateFile) = some (.file template) := by
  unfold stateAtRun osWriteFile at hw ⊢
  split at hw
  · simp at hw
  · split at hw
    · simp at hw
    · simp [FS.put]

theorem resolve_reportFile_ne_templateFile (cwd : List String) :
    resolve cwd reportFile ≠ resolve cwd templateFile := by
  simp [resolve, reportFile, templateFile, GoPath.rel]

/-- Whenever `generateLicensesReport` returns no error, the scanner exited
with status zero and its standard output is the content of `docs/_licenses.md`
under the working directory of the process. -/
theorem report_written_under_cwd (run : Scanner) (faults : Faults) (dir : GoPath) (w : World)
    (hok : (generateLicensesReport run faults dir w).2 = none) :
    (run (stateAtRun faults w).1 (reportCommand dir)).err = none ∧
    (generateLicensesReport run faults dir w).1.fs (resolve w.cwd reportFile) =
      some (.file (run (stateAtRun faults w).1 (reportCommand dir)).stdout) := by
  have hc : (stateAtRun faults w).1.cwd = w.cwd := osWriteFile_cwd _ _ _ _
  unfold generateLicensesReport at hok ⊢
  cases hs : stateAtRun faults w with
  | mk w1 e1 =>
    rw [hs] at hok hc
    simp only at hc
    cases e1 with
    | some e => simp at hok
    | none =>
      simp only at hok ⊢
      unfold reportBody at hok ⊢
      simp only at hok ⊢
      cases hr : (run w1 (reportCommand dir)).err with
      | some e => rw [hr] at hok; simp at hok
      | none =>
        rw [hr] at hok
        simp only at hok ⊢
        refine ⟨trivial, ?_⟩
        cases hm : osMkdirAll faults.mkdirAll w1 docsDir with
        | mk w2 e2 =>
          have hc2 : w2.cwd = w1.cwd := by
            have := osMkdirAll_cwd faults.mkdirAll w1 docsDir
            rw [hm] at this
            exact this
          rw [hm] at hok
          cases e2 with
          | some e => simp at hok
          | none =>
            simp only at hok ⊢
            cases hcr : osCreate faults.create w2 reportFile with
            | mk w3 e3 =>
              have hc3 : w3.cwd = w2.cwd := by
                have := osCreate_cwd faults.create w2 reportFile
                rw [hcr] at this
                exact this
              rw [hcr] at hok
              cases e3 with
              | some e => simp at hok
              | none =>
                simp only at hok ⊢
                cases hf : faults.copy with
                | some ne =>
                  rw [hf] at hok
                  simp [ioCopy] at hok
                | none =>
                  have hcwd : w3.cwd = w.cwd := by rw [hc3, hc2, hc]
                  cases hrm : faults.remove with
                  | some e => simp [ioCopy, osRemove, FS.put, hcwd]
                  | none =>
                    simp [ioCopy, osRemove, FS.erase, FS.put, hcwd,
                      resolve_reportFile_ne_templateFile]

/-! ## Report mode: the claims -/

/-- C6, as stated, fails at two inputs on which the scanner exits with status
zero and writes one row.  At the first the module root is the working
directory and `os.Create` fails: `generateLicensesReport` returns that error
and no report file exists.  At the second the module root is `sub` below the
working directory `/work` and no write fails: nothing is left at
`/work/sub/docs/_licenses.md`, and the row is at `/work/docs/_licenses.md`. -/
theorem generateLicensesReport_report_not_always_under_root :
    ((echoScanner sampleWorld (reportCommand GoPath.dot)).err = none ∧
      (generateLicensesReport echoScanner createDenied GoPath.dot sampleWorld).2 =
        some "permission denied" ∧
      (generateLicensesReport echoScanner createDenied GoPath.dot sampleWorld).1.fs
        (resolve (resolve sampleWorld.cwd GoPath.dot) reportFile) = none) ∧
    ((echoScanner sampleWorld (reportCommand subDir)).err = none ∧
      (generateLicensesReport echoScanner Faults.none subDir sampleWorld).2 = none ∧
      (generateLicensesReport echoScanner Faults.none subDir sampleWorld).1.fs
        (resolve (resolve sampleWorld.cwd subDir) reportFile) = none ∧
      (generateLicensesReport echoScanner Faults.none subDir sampleWorld).1.fs
        (resolve sampleWorld.cwd reportFile) = some (.file sampleReport)) := by
  decide

/-- C6 (amended): for every module root `dir` that is the working directory of
the process, whenever `generateLicensesReport dir` returns no error, the
scanner exited with status zero and the file `docs/_licenses.md` under `dir`
exists and holds exactly the standard output of the scanner, whatever it held
before. -/
theorem generateLicensesReport_report_in_working_dir (run : Scanner) (faults : Faults)
    (dir : GoPath) (w : World) (hdir : resolve w.cwd dir = w.cwd)
    (hok : (generateLicensesReport run faults dir w).2 = none) :
    (run (stateAtRun faults w).1 (reportCommand dir)).err = none ∧
    (generateLicensesReport run faults dir w).1.fs (resolve (resolve w.cwd dir) reportFile) =
      some (.file (run (stateAtRun faults w).1 (reportCommand dir)).stdout) := by
  rw [hdir]
  exact report_written_under_cwd run faults dir w hok

/-- Witness of C6 (amended), at the module root `.` of a process whose
directory `docs` already holds an older report. -/
theorem generateLicensesReport_report_in_working_dir_witness :
    resolve worldWithOldReport.cwd GoPath.dot = worldWithOldReport.cwd ∧
    (generateLicensesReport echoScanner Faults.none GoPath.dot worldWithOldReport).2 = none ∧
    worldWithOldReport.fs (resolve (resolve worldWithOldReport.cwd GoPath.dot) reportFile) =
      some (.file "old".toList) ∧
    (generateLicensesReport echoScanner Faults.none GoPath.dot worldWithOldReport).1.fs
        (resolve (resolve worldWithOldReport.cwd GoPath.dot) reportFile) =
      some (.file sampleReport) :=
  ⟨by decide, by decide, by decide,
   (generateLicensesReport_report_in_working_dir echoScanner Faults.none GoPath.dot
      worldWithOldReport (by decide) (by decide)).2⟩

/-- C7: for the module root `sub` below the working directory `/work`, when
the scanner is started the embedded template is at `/work/template.tpl` and
nothing is at `/work/sub/template.tpl`, the file that `--template=template.tpl`
names for a scanner working in `/work/sub`; a scanner that reads that file
fails, and so does `generateLicensesReport`. -/
theorem template_written_outside_scanner_dir :
    (stateAtRun Faults.none sampleWorld).2 = none ∧
    (stateAtRun Faults.none sampleWorld).1.fs (resolve sampleWorld.cwd templateFile) =
        some (.file template) ∧
    (stateAtRun Faults.none sampleWorld).1.fs
        (resolve ((reportCommand subDir).workDir (stateAtRun Faults.none sampleWorld).1)
          templateFile) = none ∧
    (generateLicensesReport templateScanner Faults.none subDir sampleWorld).2 =
        some "exit status 1" :=
  ⟨by decide, rfl, by decide, by decide⟩

/-- C8, as stated, fails: in a working directory that already holds a file
`template.tpl` and in which the deferred `os.Remove` fails, `os.WriteFile`
writes the template without error, the scanner exits with status zero,
`generateLicensesReport` returns no error, and the template file still exists
in the state it leaves. -/
theorem generateLicensesReport_template_remains_when_remove_fails :
    (stateAtRun removeDenied worldWithTemplate).2 = none ∧
    (echoScanner (stateAtRun removeDenied worldWithTemplate).1 (reportCommand GoPath.dot)).err =
        none ∧
    (generateLicensesReport echoScanner removeDenied GoPath.dot worldWithTemplate).2 = none ∧
    (generateLicensesReport echoScanner removeDenied GoPath.dot worldWithTemplate).1.fs
        (resolve worldWithTemplate.cwd templateFile) ≠ none := by
  decide

/-- C8 (amended): for every module root, scanner and failure of the later
writes, once `os.WriteFile` has written the template file (it returned no
error), the file holds the template when the scanner is started, and whenever
the deferred `os.Remove` does not fail the file no longer exists in the state
that `generateLicensesReport` leaves. -/
theorem generateLicensesReport_removes_template (run : Scanner) (faults : Faults)
    (dir : GoPath) (w : World) (hw : (stateAtRun faults w).2 = none)
    (hrm : faults.remove = none) :
    (stateAtRun faults w).1.fs (resolve w.cwd templateFile) = some (.file template) ∧
    (generateLicensesReport run faults dir w).1.fs (resolve w.cwd templateFile) = none := by
  refine ⟨stateAtRun_written faults w hw, ?_⟩
  unfold generateLicensesReport
  have hc : (stateAtRun faults w).1.cwd = w.cwd := osWriteFile_cwd _ _ _ _
  split
  · rename_i h
    rw [h] at hw
    simp at hw
  · rename_i w1 h
    rw [h] at hc
    simp only at hc
    simp only [osRemove, hrm, reportBody_cwd, hc, FS.erase, if_true]

/-- Witness of C8 (amended), at a scanner that exits with status one in a
working directory that already holds a file `template.tpl`. -/
theorem generateLicensesReport_removes_template_witness :
    (stateAtRun Faults.none worldWithTemplate).2 = none ∧
    Faults.none.remove = none ∧
    (failingScanner worldWithTemplate (reportCommand subDir)).err = some "exit status 1" ∧
    (generateLicensesReport failingScanner Faults.none subDir worldWithTemplate).1.fs
        (resolve worldWithTemplate.cwd templateFile) = none :=
  ⟨by decide, rfl, rfl,
   (generateLicensesReport_removes_template failingScanner Faults.none subDir worldWithTemplate
      (by decide) rfl).2⟩

/-! ## The handlers: the claims -/

/-- The loop of the handlers submits the first root and returns. -/
theorem dispatchLoop_cons (dir : GoPath) (rest : List GoPath) :
    dispatchLoop (dir :: rest) [] = ([dir], true) := rfl

/-- C1: on a tree with the two module roots `a` and `b`, the locator returns
both, and the check handler and the report handler each submit the task of `a`
only.  The check handler returns no error although the task of `b`, had it
run, would have returned `Found 2 violations in b`. -/
theorem handlers_submit_only_first_root :
    findGoModDirs GoPath.dot treeTwoRoots = .ok [GoPath.rel ["a"], GoPath.rel ["b"]] ∧
    (checkRunE violationsInB defaultDisallowed GoPath.dot treeTwoRoots sampleWorld).submitted =
        [GoPath.rel ["a"]] ∧
    (checkRunE violationsInB defaultDisallowed GoPath.dot treeTwoRoots sampleWorld).result =
        .ok ∧
    checkTask (violationsInB sampleWorld) defaultDisallowed (GoPath.rel ["b"]) =
        some "Found 2 violations in b\n" ∧
    (reportRunE echoScanner noFaults GoPath.dot treeTwoRoots sampleWorld).submitted =
        [GoPath.rel ["a"]] :=
  ⟨rfl, by decide, by decide, by decide, by decide⟩

/-- C10: whenever the locator returns the empty sequence without error, the
check handler and the report handler both return the error
`no directories with go.mod found`, submit no task, and leave the state as it
was. -/
theorem handlers_fail_without_modules (run : Scanner) (disallowed : List String)
    (faults : GoPath → Faults) (root : GoPath) (tree : Node) (w : World)
    (hempty : findGoModDirs root tree = .ok []) :
    (checkRunE run disallowed root tree w).result = .error "no directories with go.mod found" ∧
    (checkRunE run disallowed root tree w).submitted = [] ∧
    (checkRunE run disallowed root tree w).world = w ∧
    (reportRunE run faults root tree w).result = .error "no directories with go.mod found" ∧
    (reportRunE run faults root tree w).submitted = [] ∧
    (reportRunE run faults root tree w).world = w := by
  simp [checkRunE, reportRunE, runHandler, hempty]

/-- Witness of C10, at a tree without any descriptor file. -/
theorem handlers_fail_without_modules_witness :
    findGoModDirs GoPath.dot treeNoRoot = .ok [] ∧
    (checkRunE echoScanner defaultDisallowed GoPath.dot treeNoRoot sampleWorld).result =
        .error "no directories with go.mod found" ∧
    (reportRunE echoScanner noFaults GoPath.dot treeNoRoot sampleWorld).submitted = [] :=
  ⟨rfl,
   (handlers_fail_without_modules echoScanner defaultDisallowed noFaults GoPath.dot treeNoRoot
      sampleWorld rfl).1,
   (handlers_fail_without_modules echoScanner defaultDisallowed noFaults GoPath.dot treeNoRoot
      sampleWorld rfl).2.2.2.2.1⟩

end Licenser
